import Mathlib

/-!
# Movies REST API (`app.js`): shallow embedding and verified properties

The Express application keeps one module-level array `movies` and registers six
route handlers.  Each handler is embedded as a pure function from the current
collection and the request inputs to the response and the next collection.

Conventions of the embedding

* A JavaScript value is a `Val`; an object (`Obj`) is its list of own
  properties with distinct keys, looked up by key.  Handlers only ever compare
  `id`, walk `genre`, and copy everything else, so the key order of an object
  is kept as insertion order (the reordering of integer-like keys by the
  engine is not modelled).
* `String.prototype.toLowerCase` is a parameter `lower : String → String`.
* `validateMovie` / `validatePartialMovie` come from `./schemas/movies`, which is
  not part of the sources; they are parameters of type `Val → ParseResult`.
* `crypto.randomUUID()` is a parameter `uuid : String` of the create handler.
* A response records the status, the body handed to `res.json` / `res.send`,
  and every call `res.header(name, value)` in order, with `none` standing for
  the JavaScript value `undefined`.
-/

namespace MoviesApi

/-! ## Values and objects -/

/-- JavaScript values that can occur in parsed JSON bodies and in records.
The handlers never compute with numbers; they are carried as integers. -/
inductive Val where
  | undefined
  | null
  | bool (b : Bool)
  | num (n : Int)
  | str (s : String)
  | arr (xs : List Val)
  | obj (fields : List (String × Val))

mutual
/-- Decidable equality of values, by recursion on both values. -/
def Val.decEq : (a b : Val) → Decidable (a = b)
  | .undefined, .undefined => isTrue rfl
  | .null, .null => isTrue rfl
  | .bool a, .bool b =>
    if h : a = b then isTrue (by rw [h])
    else isFalse (by intro e; cases e; exact h rfl)
  | .num a, .num b =>
    if h : a = b then isTrue (by rw [h])
    else isFalse (by intro e; cases e; exact h rfl)
  | .str a, .str b =>
    if h : a = b then isTrue (by rw [h])
    else isFalse (by intro e; cases e; exact h rfl)
  | .arr xs, .arr ys =>
    match Val.decEqList xs ys with
    | isTrue h => isTrue (by rw [h])
    | isFalse h => isFalse (by intro e; cases e; exact h rfl)
  | .obj xs, .obj ys =>
    match Val.decEqFields xs ys with
    | isTrue h => isTrue (by rw [h])
    | isFalse h => isFalse (by intro e; cases e; exact h rfl)
  | .undefined, .null => isFalse (by intro e; cases e)
  | .undefined, .bool _ => isFalse (by intro e; cases e)
  | .undefined, .num _ => isFalse (by intro e; cases e)
  | .undefined, .str _ => isFalse (by intro e; cases e)
  | .undefined, .arr _ => isFalse (by intro e; cases e)
  | .undefined, .obj _ => isFalse (by intro e; cases e)
  | .null, .undefined => isFalse (by intro e; cases e)
  | .null, .bool _ => isFalse (by intro e; cases e)
  | .null, .num _ => isFalse (by intro e; cases e)
  | .null, .str _ => isFalse (by intro e; cases e)
  | .null, .arr _ => isFalse (by intro e; cases e)
  | .null, .obj _ => isFalse (by intro e; cases e)
  | .bool _, .undefined => isFalse (by intro e; cases e)
  | .bool _, .null => isFalse (by intro e; cases e)
  | .bool _, .num _ => isFalse (by intro e; cases e)
  | .bool _, .str _ => isFalse (by intro e; cases e)
  | .bool _, .arr _ => isFalse (by intro e; cases e)
  | .bool _, .obj _ => isFalse (by intro e; cases e)
  | .num _, .undefined => isFalse (by intro e; cases e)
  | .num _, .null => isFalse (by intro e; cases e)
  | .num _, .bool _ => isFalse (by intro e; cases e)
  | .num _, .str _ => isFalse (by intro e; cases e)
  | .num _, .arr _ => isFalse (by intro e; cases e)
  | .num _, .obj _ => isFalse (by intro e; cases e)
  | .str _, .undefined => isFalse (by intro e; cases e)
  | .str _, .null => isFalse (by intro e; cases e)
  | .str _, .bool _ => isFalse (by intro e; cases e)
  | .str _, .num _ => isFalse (by intro e; cases e)
  | .str _, .arr _ => isFalse (by intro e; cases e)
  | .str _, .obj _ => isFalse (by intro e; cases e)
  | .arr _, .undefined => isFalse (by intro e; cases e)
  | .arr _, .null => isFalse (by intro e; cases e)
  | .arr _, .bool _ => isFalse (by intro e; cases e)
  | .arr _, .num _ => isFalse (by intro e; cases e)
  | .arr _, .str _ => isFalse (by intro e; cases e)
  | .arr _, .obj _ => isFalse (by intro e; cases e)
  | .obj _, .undefined => isFalse (by intro e; cases e)
  | .obj _, .null => isFalse (by intro e; cases e)
  | .obj _, .bool _ => isFalse (by intro e; cases e)
  | .obj _, .num _ => isFalse (by intro e; cases e)
  | .obj _, .str _ => isFalse (by intro e; cases e)
  | .obj _, .arr _ => isFalse (by intro e; cases e)
/-- Decidable equality of lists of values. -/
def Val.decEqList : (xs ys : List Val) → Decidable (xs = ys)
  | [], [] => isTrue rfl
  | [], _ :: _ => isFalse (by intro e; cases e)
  | _ :: _, [] => isFalse (by intro e; cases e)
  | x :: xs, y :: ys =>
    match Val.decEq x y, Val.decEqList xs ys with
    | isTrue h, isTrue h' => isTrue (by rw [h, h'])
    | isFalse h, _ => isFalse (by intro e; cases e; exact h rfl)
    | _, isFalse h => isFalse (by intro e; cases e; exact h rfl)
/-- Decidable equality of property lists. -/
def Val.decEqFields : (xs ys : List (String × Val)) → Decidable (xs = ys)
  | [], [] => isTrue rfl
  | [], _ :: _ => isFalse (by intro e; cases e)
  | _ :: _, [] => isFalse (by intro e; cases e)
  | (k, x) :: xs, (k', y) :: ys =>
    if hk : k = k' then
      match Val.decEq x y, Val.decEqFields xs ys with
      | isTrue h, isTrue h' => isTrue (by rw [hk, h, h'])
      | isFalse h, _ => isFalse (by intro e; cases e; exact h rfl)
      | _, isFalse h => isFalse (by intro e; cases e; exact h rfl)
    else isFalse (by intro e; cases e; exact hk rfl)
end

instance : DecidableEq Val := Val.decEq

/-- The own properties of an object, in order. -/
abbrev Fields := List (String × Val)

/-- Property read on a property list; `none` when the key is not there. -/
def Fields.get : Fields → String → Option Val
  | [], _ => none
  | (k', v) :: rest, k => if k' = k then some v else Fields.get rest k

/-- Property write (`CreateDataProperty`): an existing key keeps its place and
gets the new value, a new key is added at the end. -/
def Fields.set : Fields → String → Val → Fields
  | [], k, v => [(k, v)]
  | (k', v') :: rest, k, v =>
    if k' = k then (k', v) :: rest else (k', v') :: Fields.set rest k v

/-- Keys of a property list. -/
def Fields.keys (fs : Fields) : List String := fs.map Prod.fst

theorem Fields.keys_set (fs : Fields) (k : String) (v : Val) :
    (Fields.set fs k v).keys = if k ∈ fs.keys then fs.keys else fs.keys ++ [k] := by
  induction fs with
  | nil => simp [Fields.set, Fields.keys]
  | cons kv rest ih =>
    obtain ⟨k', v'⟩ := kv
    by_cases h : k' = k
    · subst h
      simp [Fields.set, Fields.keys]
    · have h' : ¬ k = k' := fun e => h e.symm
      simp only [Fields.keys] at ih
      by_cases hm : k ∈ List.map Prod.fst rest
      · simp [Fields.set, Fields.keys, h, h', hm, ih]
      · simp [Fields.set, Fields.keys, h, h', hm, ih]

theorem Fields.nodup_set (fs : Fields) (k : String) (v : Val)
    (h : fs.keys.Nodup) : (Fields.set fs k v).keys.Nodup := by
  rw [Fields.keys_set]
  split
  · exact h
  · rename_i hk
    refine List.Nodup.append h (List.nodup_singleton k) ?_
    intro a ha hak
    rw [List.mem_singleton] at hak
    exact hk (hak ▸ ha)

/-- A JavaScript object: own properties with pairwise distinct keys. -/
structure Obj where
  fields : Fields
  nodupKeys : fields.keys.Nodup
deriving DecidableEq

/-- The empty object literal. -/
def Obj.empty : Obj := ⟨[], List.nodup_nil⟩

/-- Property read `o[k]`; `none` when `o` has no own property `k`. -/
def Obj.get (o : Obj) (k : String) : Option Val := o.fields.get k

/-- Property write `o[k] = v` at object-literal construction. -/
def Obj.set (o : Obj) (k : String) (v : Val) : Obj :=
  ⟨o.fields.set k v, Fields.nodup_set o.fields k v o.nodupKeys⟩

/-- Spread `...source` inside an object literal whose properties so far are
`target`: every own property of `source` is written into `target`, in order. -/
def spreadInto (target source : Obj) : Obj :=
  source.fields.foldl (fun acc kv => acc.set kv.1 kv.2) target

/-! ## Requests, validation results, responses -/

/-- Result of `safeParse`: `{ success: true, data }` or
`{ success: false, error }`; `issues` is `JSON.parse(result.error.message)`. -/
inductive ParseResult where
  | ok (data : Obj)
  | fail (issues : Val)
deriving DecidableEq

/-- What the handler passes to the response writer as payload. -/
inductive Body where
  | json (v : Val)
  | send (v : Val)
deriving DecidableEq

/-- A response: status, the `res.header` calls in order, and the payload. -/
structure Res where
  status : Nat
  headers : List (String × Option String)
  body : Body
deriving DecidableEq

/-- A synchronous exception escaping a handler. -/
inductive JsError where
  | typeError
deriving DecidableEq

deriving instance DecidableEq for Except

/-- The module-level list of accepted origins. -/
def ACCEPTED_ORIGINS : List String :=
  ["http://localhost:3003", "http://localhost:8080", "http://localhost:8081"]

/-- Name of the CORS origin header. -/
def ACAO : String := "Access-Control-Allow-Origin"

/-- Name of the CORS methods header. -/
def ACAM : String := "Access-Control-Allow-Methods"

/-- The guard `ACCEPTED_ORIGINS.includes(origin) || !origin`.  `origin` is
`req.header('origin')`: `none` is `undefined`; `!origin` is also true for the
empty string. -/
def originAllowed : Option String → Bool
  | none => true
  | some o => decide (o ∈ ACCEPTED_ORIGINS) || decide (o = "")

/-- Header calls made by the guarded block of `GET /movies` and
`DELETE /movies/:id`: `res.header('Access-Control-Allow-Origin', origin)`. -/
def corsHeaders (origin : Option String) : List (String × Option String) :=
  if originAllowed origin then [(ACAO, origin)] else []

/-- Header calls made by the guarded block of `OPTIONS /movies/:id`. -/
def preflightHeaders (origin : Option String) : List (String × Option String) :=
  if originAllowed origin then
    [(ACAO, origin), (ACAM, some "GET, POST, PATCH, DELETE")]
  else []

/-- The test `movie.id === id` with `id` a path parameter (always a string):
true exactly when the property is a string with the same contents. -/
def idIs (id : String) (movie : Obj) : Bool :=
  match movie.get "id" with
  | some (.str s) => decide (s = id)
  | _ => false

/-- `Array.prototype.findIndex`; `none` stands for `-1`. -/
def findIndex (p : Obj → Bool) : List Obj → Option Nat
  | [] => none
  | m :: rest => if p m then some 0 else (findIndex p rest).map (· + 1)

/-- `genre.some(g => g.toLowerCase() === genre.toLowerCase())` over the
elements of the array, left to right, stopping at the first match; an element
that is not a string has no `toLowerCase` and the call throws. -/
def someGenre (lower : String → String) (genre : String) :
    List Val → Except JsError Bool
  | [] => .ok false
  | .str g :: rest =>
    if lower g = lower genre then .ok true else someGenre lower genre rest
  | _ :: _ => .error .typeError

/-- The filter callback `movie => movie.genre.some(...)`; throws when
`movie.genre` is not an array. -/
def movieHasGenre (lower : String → String) (genre : String) (movie : Obj) :
    Except JsError Bool :=
  match movie.get "genre" with
  | some (.arr gs) => someGenre lower genre gs
  | _ => .error .typeError

/-- `movies.filter(cb)` with a callback that may throw. -/
def filterMovies (cb : Obj → Except JsError Bool) :
    List Obj → Except JsError (List Obj)
  | [] => .ok []
  | m :: rest =>
    match cb m with
    | .error e => .error e
    | .ok keep =>
      match filterMovies cb rest with
      | .error e => .error e
      | .ok kept => .ok (if keep then m :: kept else kept)

/-- The collection as the JSON payload `res.json(movies)`. -/
def moviesJson (movies : List Obj) : Val :=
  .arr (movies.map (fun movie => Val.obj movie.fields))

/-! ## Route handlers -/

/-- Handler `app.get('/movies')`.  `genre` is `req.query.genre`; the branch
`if (genre)` is taken for a non-empty string. -/
def getMovies (lower : String → String) (movies : List Obj)
    (origin genre : Option String) : Except JsError Res :=
  match genre with
  | some g =>
    if g = "" then .ok ⟨200, corsHeaders origin, .json (moviesJson movies)⟩
    else
      match filterMovies (movieHasGenre lower g) movies with
      | .error e => .error e
      | .ok filteredMovies =>
        .ok ⟨200, corsHeaders origin, .json (moviesJson filteredMovies)⟩
  | none => .ok ⟨200, corsHeaders origin, .json (moviesJson movies)⟩

/-- Handler `app.get('/movies/:id')`. -/
def getMovieById (movies : List Obj) (id : String) : Res :=
  match movies.find? (idIs id) with
  | some movie => ⟨200, [], .json (.obj movie.fields)⟩
  | none => ⟨404, [], .json (.obj [("message", .str "Movie not found 😔")])⟩

/-- The literal `{ id: crypto.randomUUID(), ...result.data }`. -/
def newMovie (uuid : String) (data : Obj) : Obj :=
  spreadInto (Obj.empty.set "id" (.str uuid)) data

/-- The literal `{ ...movies[movieIndex], ...result.data }`. -/
def updateMovie (old data : Obj) : Obj :=
  spreadInto (spreadInto Obj.empty old) data

/-- Handler `app.post('/movies')`: response and next collection.  The call
`console.log(result.error)` writes to standard output only. -/
def postMovie (validateMovie : Val → ParseResult) (uuid : String)
    (movies : List Obj) (body : Val) : Res × List Obj :=
  match validateMovie body with
  | .fail issues => (⟨422, [], .json (.obj [("error", issues)])⟩, movies)
  | .ok data =>
    (⟨201, [], .json (.obj (newMovie uuid data).fields)⟩,
     movies ++ [newMovie uuid data])

/-- Handler `app.patch('/movies/:id')`: response and next collection. -/
def patchMovie (validatePartialMovie : Val → ParseResult)
    (movies : List Obj) (id : String) (body : Val) : Res × List Obj :=
  match validatePartialMovie body with
  | .fail issues => (⟨400, [], .json (.obj [("error", issues)])⟩, movies)
  | .ok data =>
    match findIndex (idIs id) movies with
    | none =>
      (⟨404, [], .json (.obj [("message", .str "Movie not found")])⟩, movies)
    | some movieIndex =>
      let merged := updateMovie (movies.getD movieIndex Obj.empty) data
      (⟨200, [], .json (.obj merged.fields)⟩, movies.set movieIndex merged)

/-- Handler `app.delete('/movies/:id')`: response and next collection. -/
def deleteMovie (movies : List Obj) (origin : Option String) (id : String) :
    Res × List Obj :=
  match findIndex (idIs id) movies with
  | none =>
    (⟨404, corsHeaders origin,
      .json (.obj [("message", .str "Movie not found")])⟩, movies)
  | some movieIndex =>
    (⟨200, corsHeaders origin,
      .json (.obj [("message", .str "Movie deleted")])⟩,
     movies.eraseIdx movieIndex)

/-- Handler `app.options('/movies/:id')`: `res.send(200)`. -/
def optionsMovie (origin : Option String) : Res :=
  ⟨200, preflightHeaders origin, .send (.num 200)⟩

/-! ## The collection as a state machine -/

/-- One request to the application. -/
inductive Op where
  | list (origin genre : Option String)
  | getById (id : String)
  | create (body : Val)
  | update (id : String) (body : Val)
  | delete (origin : Option String) (id : String)
  | preflight (origin : Option String)

/-- The collection after serving one request.  `GET` and `OPTIONS` handlers
never assign to `movies`, whether they respond or throw. -/
def step (validateMovie validatePartialMovie : Val → ParseResult)
    (uuid : String) (movies : List Obj) : Op → List Obj
  | .list _ _ => movies
  | .getById _ => movies
  | .create body => (postMovie validateMovie uuid movies body).2
  | .update id body => (patchMovie validatePartialMovie movies id body).2
  | .delete origin id => (deleteMovie movies origin id).2
  | .preflight _ => movies

/-! ## Properties named by the specification -/

/-- No two movies of the collection share an `id`. -/
def uniqueIds (movies : List Obj) : Prop :=
  (movies.map (fun movie => movie.get "id")).Nodup

instance (movies : List Obj) : Decidable (uniqueIds movies) := by
  unfold uniqueIds; infer_instance

/-- The `genre` of a movie is, as in the data model, a sequence of text tags. -/
def GenreTyped (movie : Obj) : Prop :=
  ∃ tags : List String, movie.get "genre" = some (.arr (tags.map Val.str))

/-- The genre list of `movie` contains a tag equal to `genre` after
lower-casing both. -/
def HasGenre (lower : String → String) (genre : String) (movie : Obj) : Prop :=
  ∃ gs g, movie.get "genre" = some (.arr gs) ∧ Val.str g ∈ gs ∧
    lower g = lower genre

/-- Boolean form of `HasGenre`, for filtering. -/
def hasGenreTag (lower : String → String) (genre : String) (movie : Obj) :
    Bool :=
  match movie.get "genre" with
  | some (.arr gs) =>
    gs.any (fun v => match v with
      | .str g => decide (lower g = lower genre)
      | _ => false)
  | _ => false

/-- The header calls of a response that name `Access-Control-Allow-Origin`. -/
def acaoCalls (r : Res) : List (String × Option String) :=
  r.headers.filter (fun h => decide (h.1 = ACAO))

/-- Status and payload of a response, without its headers. -/
def Res.outcome (r : Res) : Nat × Body := (r.status, r.body)

/-! ## Sample inputs -/

/-- ASCII lower-casing, used to evaluate the handlers on sample inputs. -/
def asciiLower (s : String) : String := String.mk (s.data.map Char.toLower)

/-- A validator that accepts every object body unchanged. -/
def acceptObject : Val → ParseResult
  | .obj fs =>
    if h : Fields.keys fs |>.Nodup then .ok ⟨fs, h⟩ else .fail .null
  | _ => .fail .null

/-- A validator that accepts one fixed draft whatever the body. -/
def acceptAs (data : Obj) : Val → ParseResult := fun _ => .ok data

/-- A validator that rejects every body. -/
def rejectAll : Val → ParseResult := fun _ => .fail (.arr [])

/-- Sample record with id `a`. -/
def movieA : Obj :=
  ⟨[("id", .str "a"), ("title", .str "Alpha"),
    ("genre", .arr [.str "Drama", .str "Action"])], by decide⟩

/-- Sample record with id `b`. -/
def movieB : Obj :=
  ⟨[("id", .str "b"), ("title", .str "Beta"),
    ("genre", .arr [.str "Comedy"])], by decide⟩

/-- Sample draft without an `id` property. -/
def draftTitle : Obj := ⟨[("title", .str "Gamma")], by decide⟩

/-- Sample draft that carries an `id` property. -/
def draftWithId : Obj := ⟨[("id", .str "b")], by decide⟩

/-- Sample record with id `a` again, under another title. -/
def movieA2 : Obj :=
  ⟨[("id", .str "a"), ("title", .str "Alpha again"),
    ("genre", .arr [.str "Drama"])], by decide⟩

/-- Sample record without a `genre` property: what `POST /movies` stores for
the draft `draftTitle` and the generated id `c`. -/
def movieNoGenre : Obj :=
  ⟨[("id", .str "c"), ("title", .str "Gamma")], by decide⟩

/-- Sample record whose genre list holds a number. -/
def movieNumGenre : Obj :=
  ⟨[("id", .str "d"), ("genre", .arr [.num 1])], by decide⟩

end MoviesApi

namespace MoviesApi

/-! ## Lemmas on objects -/

theorem Fields.get_eq_none_of_not_mem (fs : Fields) (k : String)
    (h : k ∉ fs.keys) : fs.get k = none := by
  induction fs with
  | nil => rfl
  | cons kv rest ih =>
    obtain ⟨k', v'⟩ := kv
    simp only [Fields.keys, List.map_cons, List.mem_cons, not_or] at h
    have hne : ¬ k' = k := fun e => h.1 e.symm
    simp only [Fields.get, hne, if_false]
    exact ih h.2

theorem Fields.get_set (fs : Fields) (k : String) (v : Val) (k' : String) :
    (Fields.set fs k v).get k' = if k = k' then some v else fs.get k' := by
  induction fs with
  | nil => simp [Fields.set, Fields.get]
  | cons kv rest ih =>
    obtain ⟨k1, v1⟩ := kv
    by_cases h1 : k1 = k
    · subst h1
      by_cases h2 : k1 = k'
      · simp [Fields.set, Fields.get, h2]
      · simp [Fields.set, Fields.get, h2]
    · by_cases h2 : k1 = k'
      · subst h2
        have h3 : ¬ k = k1 := fun e => h1 e.symm
        simp [Fields.set, Fields.get, h1, h3]
      · simp [Fields.set, Fields.get, h1, h2, ih]

theorem Fields.set_of_not_mem (fs : Fields) (k : String) (v : Val)
    (h : k ∉ fs.keys) : Fields.set fs k v = fs ++ [(k, v)] := by
  induction fs with
  | nil => rfl
  | cons kv rest ih =>
    obtain ⟨k', v'⟩ := kv
    simp only [Fields.keys, List.map_cons, List.mem_cons, not_or] at h
    have hne : ¬ k' = k := fun e => h.1 e.symm
    simp only [Fields.set, hne, if_false, List.cons_append]
    rw [ih h.2]

theorem foldl_set_fields (fs : Fields) (t : Obj) :
    (fs.foldl (fun acc kv => Obj.set acc kv.1 kv.2) t).fields =
      fs.foldl (fun acc kv => Fields.set acc kv.1 kv.2) t.fields := by
  induction fs generalizing t with
  | nil => rfl
  | cons kv rest ih =>
    simp only [List.foldl_cons]
    rw [ih]
    rfl

theorem Fields.get_foldl_set (fs : Fields) (h : fs.keys.Nodup) (t : Fields)
    (k : String) :
    (fs.foldl (fun acc kv => Fields.set acc kv.1 kv.2) t).get k =
      match fs.get k with
      | some v => some v
      | none => t.get k := by
  induction fs generalizing t with
  | nil => rfl
  | cons kv rest ih =>
    obtain ⟨k1, v1⟩ := kv
    simp only [Fields.keys, List.map_cons, List.nodup_cons] at h
    simp only [List.foldl_cons]
    rw [ih h.2]
    by_cases h1 : k1 = k
    · subst h1
      have hn : Fields.get rest k1 = none :=
        Fields.get_eq_none_of_not_mem rest k1 h.1
      simp [Fields.get, hn, Fields.get_set]
    · simp only [Fields.get, h1, if_false, Fields.get_set]

theorem Fields.foldl_set_append (fs : Fields) (t : Fields)
    (h : (t ++ fs).keys.Nodup) :
    fs.foldl (fun acc kv => Fields.set acc kv.1 kv.2) t = t ++ fs := by
  induction fs generalizing t with
  | nil => simp
  | cons kv rest ih =>
    obtain ⟨k1, v1⟩ := kv
    have hk : k1 ∉ Fields.keys t := by
      intro hm
      simp only [Fields.keys, List.map_append, List.map_cons] at h hm
      have hd := (List.nodup_append.mp h).2.2
      exact hd hm (List.mem_cons_self _ _)
    simp only [List.foldl_cons]
    rw [Fields.set_of_not_mem t k1 v1 hk, ih]
    · simp
    · simpa using h

theorem get_spreadInto (t s : Obj) (k : String) :
    (spreadInto t s).get k =
      match s.get k with
      | some v => some v
      | none => t.get k := by
  unfold spreadInto Obj.get
  rw [foldl_set_fields]
  exact Fields.get_foldl_set s.fields s.nodupKeys t.fields k

theorem Obj.ext_fields (a b : Obj) (h : a.fields = b.fields) : a = b := by
  cases a; cases b; cases h; rfl

theorem spreadInto_empty_left (o : Obj) : spreadInto Obj.empty o = o := by
  apply Obj.ext_fields
  unfold spreadInto
  rw [foldl_set_fields]
  have := Fields.foldl_set_append o.fields [] (by simpa using o.nodupKeys)
  simpa [Obj.empty] using this

theorem spreadInto_no_fields (t s : Obj) (h : s.fields = []) :
    spreadInto t s = t := by
  unfold spreadInto
  rw [h]
  rfl

theorem updateMovie_eq (old data : Obj) :
    updateMovie old data = spreadInto old data := by
  unfold updateMovie
  rw [spreadInto_empty_left]

theorem get_updateMovie (old data : Obj) (k : String) :
    (updateMovie old data).get k =
      match data.get k with
      | some v => some v
      | none => old.get k := by
  rw [updateMovie_eq, get_spreadInto]

theorem get_newMovie (uuid : String) (data : Obj) (k : String) :
    (newMovie uuid data).get k =
      match data.get k with
      | some v => some v
      | none => if k = "id" then some (.str uuid) else none := by
  unfold newMovie
  rw [get_spreadInto]
  cases data.get k with
  | some v => rfl
  | none =>
    by_cases hk : k = "id"
    · subst hk; rfl
    · have hk2 : ¬ "id" = k := fun e => hk e.symm
      simp [Obj.get, Obj.set, Obj.empty, Fields.set, Fields.get, hk, hk2]

/-! ## Lemmas on searching and updating the collection -/

theorem findIndex_split (p : Obj → Bool) (pre : List Obj) (m : Obj)
    (post : List Obj) (hpre : ∀ x ∈ pre, p x = false) (hm : p m = true) :
    findIndex p (pre ++ m :: post) = some pre.length := by
  induction pre with
  | nil => simp [findIndex, hm]
  | cons x rest ih =>
    have hx : p x = false := hpre x (List.mem_cons_self _ _)
    have hr : ∀ y ∈ rest, p y = false :=
      fun y hy => hpre y (List.mem_cons_of_mem _ hy)
    simp [findIndex, hx, ih hr]

theorem findIndex_eq_none (p : Obj → Bool) (l : List Obj) :
    findIndex p l = none ↔ ∀ m ∈ l, p m = false := by
  induction l with
  | nil => simp [findIndex]
  | cons x rest ih =>
    by_cases hx : p x = true
    · simp [findIndex, hx]
    · have hx2 : p x = false := by simpa using hx
      simp [findIndex, hx2, ih]

theorem exists_split_of_mem (p : Obj → Bool) (l : List Obj)
    (h : ∃ m ∈ l, p m = true) :
    ∃ pre m post, l = pre ++ m :: post ∧ (∀ x ∈ pre, p x = false) ∧
      p m = true := by
  induction l with
  | nil => simp at h
  | cons x rest ih =>
    by_cases hx : p x = true
    · exact ⟨[], x, rest, rfl, by simp, hx⟩
    · have hx2 : p x = false := by simpa using hx
      have hrest : ∃ m ∈ rest, p m = true := by
        obtain ⟨m, hm, hpm⟩ := h
        rcases List.mem_cons.mp hm with e | hmem
        · subst e; exact absurd hpm hx
        · exact ⟨m, hmem, hpm⟩
      obtain ⟨pre, m, post, hl, hpre, hm⟩ := ih hrest
      refine ⟨x :: pre, m, post, by rw [hl]; rfl, ?_, hm⟩
      intro y hy
      rcases List.mem_cons.mp hy with e | hmem
      · subst e; exact hx2
      · exact hpre y hmem

theorem set_at_length (pre : List Obj) (m : Obj) (post : List Obj) (u : Obj) :
    (pre ++ m :: post).set pre.length u = pre ++ u :: post := by
  induction pre with
  | nil => rfl
  | cons x rest ih => simp [List.set, ih]

theorem eraseIdx_at_length (pre : List Obj) (m : Obj) (post : List Obj) :
    (pre ++ m :: post).eraseIdx pre.length = pre ++ post := by
  induction pre with
  | nil => rfl
  | cons x rest ih => simp [List.eraseIdx, ih]

theorem getD_at_length (pre : List Obj) (m : Obj) (post : List Obj) (d : Obj) :
    (pre ++ m :: post).getD pre.length d = m := by
  induction pre with
  | nil => rfl
  | cons x rest ih => simpa [List.getD] using ih

theorem find?_split (p : Obj → Bool) (pre : List Obj) (m : Obj)
    (post : List Obj) (hpre : ∀ x ∈ pre, p x = false) (hm : p m = true) :
    (pre ++ m :: post).find? p = some m := by
  induction pre with
  | nil => simp [List.find?, hm]
  | cons x rest ih =>
    have hx : p x = false := hpre x (List.mem_cons_self _ _)
    have hr : ∀ y ∈ rest, p y = false :=
      fun y hy => hpre y (List.mem_cons_of_mem _ hy)
    simp [List.find?, hx, ih hr]

theorem find?_none_of_all_false (p : Obj → Bool) (l : List Obj)
    (h : ∀ x ∈ l, p x = false) : l.find? p = none := by
  rw [List.find?_eq_none]
  intro x hx
  simp [h x hx]

theorem idIs_iff (id : String) (movie : Obj) :
    idIs id movie = true ↔ movie.get "id" = some (.str id) := by
  unfold idIs
  split
  · rename_i s hs
    rw [hs]
    simp
  · rename_i hne
    constructor
    · intro h; cases h
    · intro h; exact absurd h (hne id)

/-! ## The handlers on a collection split at the first match -/

theorem patchMovie_found (v : Val → ParseResult) (pre : List Obj) (m : Obj)
    (post : List Obj) (id : String) (body : Val) (data : Obj)
    (hv : v body = .ok data) (hpre : ∀ x ∈ pre, idIs id x = false)
    (hm : idIs id m = true) :
    patchMovie v (pre ++ m :: post) id body =
      (⟨200, [], .json (.obj (updateMovie m data).fields)⟩,
       pre ++ updateMovie m data :: post) := by
  unfold patchMovie
  rw [hv]
  simp only [findIndex_split (idIs id) pre m post hpre hm, getD_at_length,
    set_at_length]

theorem deleteMovie_found (pre : List Obj) (m : Obj) (post : List Obj)
    (origin : Option String) (id : String)
    (hpre : ∀ x ∈ pre, idIs id x = false) (hm : idIs id m = true) :
    deleteMovie (pre ++ m :: post) origin id =
      (⟨200, corsHeaders origin,
        .json (.obj [("message", .str "Movie deleted")])⟩, pre ++ post) := by
  unfold deleteMovie
  simp only [findIndex_split (idIs id) pre m post hpre hm, eraseIdx_at_length]

theorem deleteMovie_absent (movies : List Obj) (origin : Option String)
    (id : String) (h : ∀ x ∈ movies, idIs id x = false) :
    deleteMovie movies origin id =
      (⟨404, corsHeaders origin,
        .json (.obj [("message", .str "Movie not found")])⟩, movies) := by
  unfold deleteMovie
  rw [(findIndex_eq_none (idIs id) movies).mpr h]

/-! ## Lemmas on the genre filter -/

theorem someGenre_typed (lower : String → String) (genre : String)
    (tags : List String) :
    someGenre lower genre (tags.map Val.str) =
      .ok (tags.any (fun g => decide (lower g = lower genre))) := by
  induction tags with
  | nil => rfl
  | cons g rest ih =>
    by_cases h : lower g = lower genre
    · simp [someGenre, h]
    · simp [someGenre, h, ih]

theorem movieHasGenre_typed (lower : String → String) (genre : String)
    (movie : Obj) (h : GenreTyped movie) :
    movieHasGenre lower genre movie = .ok (hasGenreTag lower genre movie) := by
  obtain ⟨tags, ht⟩ := h
  unfold movieHasGenre hasGenreTag
  rw [ht]
  simp only [someGenre_typed]
  congr 1
  clear ht
  induction tags with
  | nil => rfl
  | cons g rest ih => simp [List.any, ih]

theorem filterMovies_total (cb : Obj → Except JsError Bool) (f : Obj → Bool)
    (movies : List Obj) (h : ∀ m ∈ movies, cb m = .ok (f m)) :
    filterMovies cb movies = .ok (movies.filter f) := by
  induction movies with
  | nil => rfl
  | cons x rest ih =>
    have hx := h x (List.mem_cons_self _ _)
    have hr := ih (fun y hy => h y (List.mem_cons_of_mem _ hy))
    simp only [filterMovies, hx, hr]
    cases hf : f x <;> simp [List.filter, hf]

theorem hasGenreTag_iff (lower : String → String) (genre : String)
    (movie : Obj) :
    hasGenreTag lower genre movie = true ↔ HasGenre lower genre movie := by
  unfold hasGenreTag HasGenre
  constructor
  · intro h
    split at h
    · rename_i gs hgs
      rw [List.any_eq_true] at h
      obtain ⟨v, hv, hm⟩ := h
      cases v with
      | str g => exact ⟨gs, g, hgs, hv, by simpa using hm⟩
      | _ => simp at hm
    · cases h
  · rintro ⟨gs, g, hgs, hmem, hl⟩
    rw [hgs]
    simp only [List.any_eq_true]
    exact ⟨Val.str g, hmem, by simpa using hl⟩

/-! ## Verified claims -/

/-- C1, refuted as stated: after `POST /movies` has stored a record without a
genre list, and likewise on a record whose genre list holds a number,
`GET /movies?genre=action` throws a `TypeError` instead of answering. -/
theorem getMovies_throws_on_untyped_genre :
    (postMovie (acceptAs draftTitle) "c" [movieA, movieB] .null).2 =
        [movieA, movieB, movieNoGenre] ∧
      getMovies asciiLower [movieA, movieB, movieNoGenre] none (some "action") =
        .error .typeError ∧
      getMovies asciiLower [movieNumGenre] none (some "action") =
        .error .typeError := by
  decide

/-- C1, amended. With a non-empty text genre filter, on a collection whose
records all carry a genre list of text tags, `GET /movies` answers 200 with
exactly the movies that
have a tag equal to the filter after lower-casing both, in collection order:
the result is the filtered collection, a subsequence of it, holds a record if
and only if the record is in the collection and has such a tag, and is empty
when no record matches. -/
theorem getMovies_genre_filter (lower : String → String) (movies : List Obj)
    (origin : Option String) (genre : String) (hg : genre ≠ "")
    (ht : ∀ m ∈ movies, GenreTyped m) :
    ∃ result : List Obj,
      getMovies lower movies origin (some genre) =
        .ok ⟨200, corsHeaders origin, .json (moviesJson result)⟩ ∧
      result = movies.filter (hasGenreTag lower genre) ∧
      result.Sublist movies ∧
      (∀ m, m ∈ result ↔ m ∈ movies ∧ HasGenre lower genre m) ∧
      ((∀ m ∈ movies, ¬ HasGenre lower genre m) → result = []) := by
  refine ⟨movies.filter (hasGenreTag lower genre), ?_, rfl,
    List.filter_sublist movies, ?_, ?_⟩
  · unfold getMovies
    simp only [hg, if_false]
    rw [filterMovies_total (movieHasGenre lower genre) (hasGenreTag lower genre)
      movies (fun m hm => movieHasGenre_typed lower genre m (ht m hm))]
  · intro m
    rw [List.mem_filter, hasGenreTag_iff]
  · intro hnone
    rw [List.filter_eq_nil_iff]
    intro m hm hc
    exact hnone m hm ((hasGenreTag_iff lower genre m).mp hc)

/-- C1 amended, on the collection `[movieA, movieB]` with the filter
`action`. -/
theorem getMovies_genre_filter_witness :
    ∃ result : List Obj,
      getMovies asciiLower [movieA, movieB] none (some "action") =
        .ok ⟨200, corsHeaders none, .json (moviesJson result)⟩ ∧
      result = [movieA, movieB].filter (hasGenreTag asciiLower "action") ∧
      result.Sublist [movieA, movieB] ∧
      (∀ m, m ∈ result ↔ m ∈ [movieA, movieB] ∧ HasGenre asciiLower "action" m) ∧
      ((∀ m ∈ [movieA, movieB], ¬ HasGenre asciiLower "action" m) →
        result = []) :=
  getMovies_genre_filter asciiLower [movieA, movieB] none "action" (by decide)
    (by
      intro m hm
      rcases List.mem_cons.mp hm with e | hm
      · subst e; exact ⟨["Drama", "Action"], rfl⟩
      · rcases List.mem_cons.mp hm with e | hm
        · subst e; exact ⟨["Comedy"], rfl⟩
        · cases hm)

/-- C2, refuted as stated: when the validated data carries the id `b` of a
stored record, or the generated id equals the stored id `a`, `POST /movies`
answers 201 with the new record, and `GET /movies/:id` with the id of that
record answers with the earlier record carrying the id, not the created one. -/
theorem create_then_getById_finds_earlier :
    (postMovie acceptObject "c" [movieA, movieB]
          (.obj [("id", .str "b")])).1 =
        ⟨201, [], .json (.obj [("id", .str "b")])⟩ ∧
      getMovieById
          (postMovie acceptObject "c" [movieA, movieB]
            (.obj [("id", .str "b")])).2 "b" =
        ⟨200, [], .json (.obj movieB.fields)⟩ ∧
      movieB.fields ≠ [("id", .str "b")] ∧
      (postMovie (acceptAs draftTitle) "a" [movieA, movieB] .null).1 =
        ⟨201, [], .json (.obj [("id", .str "a"), ("title", .str "Gamma")])⟩ ∧
      getMovieById
          (postMovie (acceptAs draftTitle) "a" [movieA, movieB] .null).2 "a" =
        ⟨200, [], .json (.obj movieA.fields)⟩ ∧
      movieA.fields ≠ [("id", .str "a"), ("title", .str "Gamma")] := by
  decide

/-- C2, amended. When the full-record validator accepts the body and the id of
the record that create returns is a string `rid` carried by no earlier record
of the collection, `POST /movies` answers 201 with the new record and a
following `GET /movies/rid` answers 200 with that same record. -/
theorem create_then_getById (validateMovie : Val → ParseResult) (uuid : String)
    (movies : List Obj) (body : Val) (data : Obj) (rid : String)
    (hv : validateMovie body = .ok data)
    (hrid : (newMovie uuid data).get "id" = some (.str rid))
    (hfresh : ∀ m ∈ movies, m.get "id" ≠ some (.str rid)) :
    (postMovie validateMovie uuid movies body).1 =
        ⟨201, [], .json (.obj (newMovie uuid data).fields)⟩ ∧
      getMovieById (postMovie validateMovie uuid movies body).2 rid =
        ⟨200, [], .json (.obj (newMovie uuid data).fields)⟩ := by
  have hpost : postMovie validateMovie uuid movies body =
      (⟨201, [], .json (.obj (newMovie uuid data).fields)⟩,
       movies ++ [newMovie uuid data]) := by
    unfold postMovie
    rw [hv]
  rw [hpost]
  refine ⟨rfl, ?_⟩
  have hpre : ∀ x ∈ movies, idIs rid x = false := by
    intro x hx
    cases hc : idIs rid x with
    | false => rfl
    | true => exact absurd ((idIs_iff rid x).mp hc) (hfresh x hx)
  have hm : idIs rid (newMovie uuid data) = true := (idIs_iff rid _).mpr hrid
  unfold getMovieById
  simp only [find?_split (idIs rid) movies (newMovie uuid data) [] hpre hm]

/-- C2 amended, creating the draft `draftTitle` with generated id `c` in the
collection `[movieA, movieB]`. -/
theorem create_then_getById_witness :
    (postMovie (acceptAs draftTitle) "c" [movieA, movieB] .null).1 =
        ⟨201, [], .json (.obj (newMovie "c" draftTitle).fields)⟩ ∧
      getMovieById
          (postMovie (acceptAs draftTitle) "c" [movieA, movieB] .null).2 "c" =
        ⟨200, [], .json (.obj (newMovie "c" draftTitle).fields)⟩ :=
  create_then_getById (acceptAs draftTitle) "c" [movieA, movieB] .null
    draftTitle "c" rfl (by decide) (by decide)

/-- C3, refuted as stated: in a collection where two records carry the id `a`,
`DELETE /movies/a` answers 200 and removes the first of them only, and the
following `GET /movies/a` answers 200 with the second. -/
theorem delete_leaves_second_match :
    (deleteMovie [movieA, movieB, movieA2] none "a").1.status = 200 ∧
      (deleteMovie [movieA, movieB, movieA2] none "a").2 = [movieB, movieA2] ∧
      getMovieById (deleteMovie [movieA, movieB, movieA2] none "a").2 "a" =
        ⟨200, [], .json (.obj movieA2.fields)⟩ := by
  decide

/-- C3, amended. On a collection in which no two movies share an id, after a
`DELETE /movies/:id` answered 200 a `GET /movies/:id` with the same id answers
404, and no record of the remaining collection carries that id. -/
theorem delete_then_getById (movies : List Obj) (origin : Option String)
    (id : String) (hu : uniqueIds movies)
    (hok : (deleteMovie movies origin id).1.status = 200) :
    getMovieById (deleteMovie movies origin id).2 id =
        ⟨404, [], .json (.obj [("message", .str "Movie not found 😔")])⟩ ∧
      ∀ m ∈ (deleteMovie movies origin id).2, m.get "id" ≠ some (.str id) := by
  by_cases hex : ∃ m ∈ movies, idIs id m = true
  · obtain ⟨pre, m, post, hl, hpre, hm⟩ := exists_split_of_mem (idIs id) movies hex
    subst hl
    rw [deleteMovie_found pre m post origin id hpre hm]
    have hmid : m.get "id" = some (.str id) := (idIs_iff id m).mp hm
    have hrest : ∀ x ∈ pre ++ post, x.get "id" ≠ some (.str id) := by
      intro x hx hc
      rcases List.mem_append.mp hx with hxp | hxp
      · have := hpre x hxp
        rw [(idIs_iff id x).mpr hc] at this
        cases this
      · unfold uniqueIds at hu
        rw [List.map_append, List.map_cons] at hu
        have hnd := (List.nodup_append.mp hu).2.1
        have hnot := (List.nodup_cons.mp hnd).1
        apply hnot
        rw [hmid, ← hc]
        exact List.mem_map_of_mem _ hxp
    refine ⟨?_, hrest⟩
    unfold getMovieById
    rw [find?_none_of_all_false (idIs id) (pre ++ post)]
    intro x hx
    cases hc : idIs id x with
    | false => rfl
    | true => exact absurd ((idIs_iff id x).mp hc) (hrest x hx)
  · have hall : ∀ x ∈ movies, idIs id x = false := by
      intro x hx
      cases hc : idIs id x with
      | false => rfl
      | true => exact absurd ⟨x, hx, hc⟩ hex
    rw [deleteMovie_absent movies origin id hall] at hok
    cases hok

/-- C3 amended, deleting the record `b` from `[movieA, movieB]`. -/
theorem delete_then_getById_witness :
    getMovieById (deleteMovie [movieA, movieB] none "b").2 "b" =
        ⟨404, [], .json (.obj [("message", .str "Movie not found 😔")])⟩ ∧
      ∀ m ∈ (deleteMovie [movieA, movieB] none "b").2,
        m.get "id" ≠ some (.str "b") :=
  delete_then_getById [movieA, movieB] none "b" (by decide) (by decide)

/-! ## Lemmas on the CORS gate -/

theorem getMovies_ok_other_origin (lower : String → String)
    (movies : List Obj) (origin origin2 genre : Option String) (r : Res)
    (h : getMovies lower movies origin genre = .ok r) :
    r.headers = corsHeaders origin ∧
      getMovies lower movies origin2 genre =
        .ok ⟨r.status, corsHeaders origin2, r.body⟩ := by
  unfold getMovies at h ⊢
  cases genre with
  | none =>
    simp only [Except.ok.injEq] at h
    subst h
    exact ⟨rfl, rfl⟩
  | some g =>
    by_cases hg : g = ""
    · simp only [hg, if_true, Except.ok.injEq] at h ⊢
      subst h
      exact ⟨rfl, rfl⟩
    · simp only [hg, if_false] at h ⊢
      cases hf : filterMovies (movieHasGenre lower g) movies with
      | error e => rw [hf] at h; cases h
      | ok kept =>
        rw [hf] at h
        simp only [Except.ok.injEq] at h
        subst h
        exact ⟨rfl, rfl⟩

theorem deleteMovie_origin (movies : List Obj) (origin : Option String)
    (id : String) :
    (deleteMovie movies origin id).1.headers = corsHeaders origin ∧
      ∀ origin2 : Option String,
        (deleteMovie movies origin2 id).1.outcome =
            (deleteMovie movies origin id).1.outcome ∧
          (deleteMovie movies origin2 id).2 = (deleteMovie movies origin id).2 := by
  unfold deleteMovie
  cases findIndex (idIs id) movies with
  | none => exact ⟨rfl, fun _ => ⟨rfl, rfl⟩⟩
  | some i => exact ⟨rfl, fun _ => ⟨rfl, rfl⟩⟩

theorem acaoCalls_corsHeaders (o : String) (ho : o ≠ "") (status : Nat)
    (body : Body) :
    acaoCalls ⟨status, corsHeaders (some o), body⟩ =
      if o ∈ ACCEPTED_ORIGINS then [(ACAO, some o)] else [] := by
  by_cases hm : o ∈ ACCEPTED_ORIGINS
  · simp [acaoCalls, corsHeaders, originAllowed, hm]
  · simp [acaoCalls, corsHeaders, originAllowed, hm, ho]

theorem acaoCalls_preflightHeaders (o : String) (ho : o ≠ "") (status : Nat)
    (body : Body) :
    acaoCalls ⟨status, preflightHeaders (some o), body⟩ =
      if o ∈ ACCEPTED_ORIGINS then [(ACAO, some o)] else [] := by
  by_cases hm : o ∈ ACCEPTED_ORIGINS
  · simp [acaoCalls, preflightHeaders, originAllowed, hm, ACAO, ACAM]
  · simp [acaoCalls, preflightHeaders, originAllowed, hm, ho]

/-- C4, refuted as stated: the validator accepts a body whose validated data
carries `id: "b"`, the path id `a` is present, and `PATCH /movies/a` stores and
returns a record whose id is `b`. -/
theorem patch_body_overrides_id :
    acceptObject (.obj [("id", .str "b")]) = .ok draftWithId ∧
      (∃ m ∈ [movieA], idIs "a" m = true) ∧
      patchMovie acceptObject [movieA] "a" (.obj [("id", .str "b")]) =
        (⟨200, [], .json (.obj [("id", .str "b"), ("title", .str "Alpha"),
            ("genre", .arr [.str "Drama", .str "Action"])])⟩,
         [updateMovie movieA draftWithId]) ∧
      (updateMovie movieA draftWithId).get "id" = some (.str "b") ∧
      (updateMovie movieA draftWithId).get "id" ≠ some (.str "a") := by
  decide

/-- C4, amended. For every collection, every path id present in it and every
body the partial validator accepts, `PATCH /movies/:id` answers 200 with the
merge of the first record carrying the path id and the validated data, stores
it in place of that record, and the id of the merged record equals the path id
if and only if the validated data carries no `id` property or carries the path
id itself. -/
theorem patch_id_kept_iff (validatePartialMovie : Val → ParseResult)
    (movies : List Obj) (id : String) (body : Val) (data : Obj)
    (hv : validatePartialMovie body = .ok data)
    (hp : ∃ m ∈ movies, idIs id m = true) :
    ∃ pre old post, movies = pre ++ old :: post ∧
      (∀ x ∈ pre, idIs id x = false) ∧ old.get "id" = some (.str id) ∧
      patchMovie validatePartialMovie movies id body =
        (⟨200, [], .json (.obj (updateMovie old data).fields)⟩,
         pre ++ updateMovie old data :: post) ∧
      ((updateMovie old data).get "id" = some (.str id) ↔
        (data.get "id" = none ∨ data.get "id" = some (.str id))) := by
  obtain ⟨pre, old, post, hl, hpre, hm⟩ := exists_split_of_mem (idIs id) movies hp
  have hold : old.get "id" = some (.str id) := (idIs_iff id old).mp hm
  refine ⟨pre, old, post, hl, hpre, hold, ?_, ?_⟩
  · rw [hl]
    exact patchMovie_found validatePartialMovie pre old post id body data hv hpre hm
  · rw [get_updateMovie]
    cases hd : data.get "id" with
    | none => simp [hold]
    | some v => simp

/-- C4 amended, patching record `a` of `[movieA, movieB]` with `draftTitle`. -/
theorem patch_id_kept_iff_witness :
    ∃ pre old post, [movieA, movieB] = pre ++ old :: post ∧
      (∀ x ∈ pre, idIs "a" x = false) ∧ old.get "id" = some (.str "a") ∧
      patchMovie (acceptAs draftTitle) [movieA, movieB] "a" .null =
        (⟨200, [], .json (.obj (updateMovie old draftTitle).fields)⟩,
         pre ++ updateMovie old draftTitle :: post) ∧
      ((updateMovie old draftTitle).get "id" = some (.str "a") ↔
        (draftTitle.get "id" = none ∨ draftTitle.get "id" = some (.str "a"))) :=
  patch_id_kept_iff (acceptAs draftTitle) [movieA, movieB] "a" .null draftTitle
    rfl (by decide)

/-- C5, refuted as stated: a request to `GET /movies` that carries an empty
Origin header gets `Access-Control-Allow-Origin` set although the empty string
is not in the allow-list. -/
theorem empty_origin_passes_gate :
    "" ∉ ACCEPTED_ORIGINS ∧
      getMovies asciiLower [movieA] (some "") none =
        .ok ⟨200, [(ACAO, some "")], .json (moviesJson [movieA])⟩ ∧
      acaoCalls (deleteMovie [movieA] (some "") "a").1 = [(ACAO, some "")] ∧
      acaoCalls (optionsMovie (some "")) = [(ACAO, some "")] := by
  decide

/-- C5, amended. For every request that carries a non-empty Origin header `o`,
list, delete and preflight set `Access-Control-Allow-Origin` exactly when `o`
is one of the entries of `ACCEPTED_ORIGINS`, once and with the value `o`; for
any other origin they do not set it; status, payload and (for delete) the next
collection are the same for every origin, and list without filter always
responds. -/
theorem cors_gate_nonempty_origin (lower : String → String)
    (movies : List Obj) (genre : Option String) (id o : String)
    (ho : o ≠ "") :
    (∀ r, getMovies lower movies (some o) genre = .ok r →
        acaoCalls r = (if o ∈ ACCEPTED_ORIGINS then [(ACAO, some o)] else []) ∧
        ∀ origin2 : Option String, ∃ r2,
          getMovies lower movies origin2 genre = .ok r2 ∧
            r2.outcome = r.outcome) ∧
      (∃ r, getMovies lower movies (some o) none = .ok r) ∧
      (acaoCalls (deleteMovie movies (some o) id).1 =
          (if o ∈ ACCEPTED_ORIGINS then [(ACAO, some o)] else []) ∧
        ∀ origin2 : Option String,
          (deleteMovie movies origin2 id).1.outcome =
              (deleteMovie movies (some o) id).1.outcome ∧
            (deleteMovie movies origin2 id).2 =
              (deleteMovie movies (some o) id).2) ∧
      (acaoCalls (optionsMovie (some o)) =
          (if o ∈ ACCEPTED_ORIGINS then [(ACAO, some o)] else []) ∧
        ∀ origin2 : Option String,
          (optionsMovie origin2).outcome = (optionsMovie (some o)).outcome) := by
  refine ⟨?_, ⟨_, rfl⟩, ⟨?_, (deleteMovie_origin movies (some o) id).2⟩, ?_,
    fun _ => rfl⟩
  · intro r hr
    obtain ⟨hh, hother⟩ := getMovies_ok_other_origin lower movies (some o) none genre r hr
    constructor
    · have := acaoCalls_corsHeaders o ho r.status r.body
      rw [← hh] at this
      exact this
    · intro origin2
      exact ⟨_, (getMovies_ok_other_origin lower movies (some o) origin2 genre r hr).2, rfl⟩
  · have hh := (deleteMovie_origin movies (some o) id).1
    have := acaoCalls_corsHeaders o ho (deleteMovie movies (some o) id).1.status
      (deleteMovie movies (some o) id).1.body
    rw [← hh] at this
    exact this
  · exact acaoCalls_preflightHeaders o ho 200 (.send (.num 200))

/-- C5 amended, at the origin `http://localhost:8080`. -/
theorem cors_gate_nonempty_origin_witness :
    (∀ r, getMovies asciiLower [movieA] (some "http://localhost:8080") none = .ok r →
        acaoCalls r = (if "http://localhost:8080" ∈ ACCEPTED_ORIGINS then
          [(ACAO, some "http://localhost:8080")] else []) ∧
        ∀ origin2 : Option String, ∃ r2,
          getMovies asciiLower [movieA] origin2 none = .ok r2 ∧
            r2.outcome = r.outcome) ∧
      (∃ r, getMovies asciiLower [movieA] (some "http://localhost:8080") none = .ok r) ∧
      (acaoCalls (deleteMovie [movieA] (some "http://localhost:8080") "a").1 =
          (if "http://localhost:8080" ∈ ACCEPTED_ORIGINS then
            [(ACAO, some "http://localhost:8080")] else []) ∧
        ∀ origin2 : Option String,
          (deleteMovie [movieA] origin2 "a").1.outcome =
              (deleteMovie [movieA] (some "http://localhost:8080") "a").1.outcome ∧
            (deleteMovie [movieA] origin2 "a").2 =
              (deleteMovie [movieA] (some "http://localhost:8080") "a").2) ∧
      (acaoCalls (optionsMovie (some "http://localhost:8080")) =
          (if "http://localhost:8080" ∈ ACCEPTED_ORIGINS then
            [(ACAO, some "http://localhost:8080")] else []) ∧
        ∀ origin2 : Option String,
          (optionsMovie origin2).outcome =
            (optionsMovie (some "http://localhost:8080")).outcome) :=
  cors_gate_nonempty_origin asciiLower [movieA] none "a"
    "http://localhost:8080" (by decide)

/-- C6, refuted as stated: with no Origin header the three gating handlers do
call `res.header('Access-Control-Allow-Origin', origin)`, passing the absent
origin. -/
theorem absent_origin_sets_header :
    getMovies asciiLower [movieA] none none =
        .ok ⟨200, [(ACAO, none)], .json (moviesJson [movieA])⟩ ∧
      (deleteMovie [movieA] none "a").1.headers = [(ACAO, none)] ∧
      (optionsMovie none).headers =
        [(ACAO, none), (ACAM, some "GET, POST, PATCH, DELETE")] := by
  decide

/-- C6, amended. For every request to list, delete or preflight whose Origin
header is absent the gate is open: the handler calls the setter of
`Access-Control-Allow-Origin` exactly once, with the absent origin
(`undefined`) as its value, so no origin string is echoed; preflight also sets
the allowed methods.  Status and payload are unaffected: they are those of
every other origin, namely 200 with the collection for the unfiltered list,
404 `Movie not found` or 200 `Movie deleted` for delete (with the same next
collection), and 200 for preflight. -/
theorem absent_origin_header_calls (lower : String → String)
    (movies : List Obj) (genre : Option String) (id : String) :
    (∀ r, getMovies lower movies none genre = .ok r →
        r.headers = [(ACAO, none)] ∧
        ∀ origin2 : Option String, ∃ r2,
          getMovies lower movies origin2 genre = .ok r2 ∧
            r2.outcome = r.outcome) ∧
      getMovies lower movies none none =
        .ok ⟨200, [(ACAO, none)], .json (moviesJson movies)⟩ ∧
      ((deleteMovie movies none id).1.headers = [(ACAO, none)] ∧
        (∀ origin2 : Option String,
          (deleteMovie movies origin2 id).1.outcome =
              (deleteMovie movies none id).1.outcome ∧
            (deleteMovie movies origin2 id).2 =
              (deleteMovie movies none id).2) ∧
        ((∀ m ∈ movies, idIs id m = false) →
          (deleteMovie movies none id).1.outcome =
            (404, .json (.obj [("message", .str "Movie not found")]))) ∧
        ((∃ m ∈ movies, idIs id m = true) →
          (deleteMovie movies none id).1.outcome =
            (200, .json (.obj [("message", .str "Movie deleted")])))) ∧
      (optionsMovie none =
          ⟨200, [(ACAO, none), (ACAM, some "GET, POST, PATCH, DELETE")],
            .send (.num 200)⟩ ∧
        ∀ origin2 : Option String,
          (optionsMovie origin2).outcome = (optionsMovie none).outcome) := by
  refine ⟨?_, rfl, ⟨?_, (deleteMovie_origin movies none id).2, ?_, ?_⟩, rfl,
    fun _ => rfl⟩
  · intro r hr
    constructor
    · rw [(getMovies_ok_other_origin lower movies none none genre r hr).1]
      rfl
    · intro origin2
      exact ⟨_, (getMovies_ok_other_origin lower movies none origin2 genre r
        hr).2, rfl⟩
  · rw [(deleteMovie_origin movies none id).1]
    rfl
  · intro h
    rw [deleteMovie_absent movies none id h]
    rfl
  · intro h
    obtain ⟨pre, m, post, hl, hpre, hm⟩ := exists_split_of_mem (idIs id) movies h
    subst hl
    rw [deleteMovie_found pre m post none id hpre hm]
    rfl

/-! ## Frame lemmas -/

theorem getElem?_replace_other (pre : List Obj) (m u : Obj) (post : List Obj)
    (j : Nat) (hj : j ≠ pre.length) :
    (pre ++ u :: post)[j]? = (pre ++ m :: post)[j]? := by
  induction pre generalizing j with
  | nil =>
    cases j with
    | zero => exact absurd rfl hj
    | succ n => simp
  | cons x rest ih =>
    cases j with
    | zero => simp
    | succ n =>
      simp only [List.cons_append, List.getElem?_cons_succ]
      exact ih n (by simpa using hj)

theorem getElem?_at_length (pre : List Obj) (u : Obj) (post : List Obj) :
    (pre ++ u :: post)[pre.length]? = some u := by
  induction pre with
  | nil => simp
  | cons x rest ih => simpa using ih

theorem getElem?_append_lt (movies : List Obj) (extra : List Obj) (j : Nat)
    (hj : j < movies.length) : (movies ++ extra)[j]? = movies[j]? := by
  induction movies generalizing j with
  | nil => simp at hj
  | cons x rest ih =>
    cases j with
    | zero => simp
    | succ n =>
      simp only [List.cons_append, List.getElem?_cons_succ]
      exact ih n (by simpa using hj)

theorem patchMovie_absent (v : Val → ParseResult) (movies : List Obj)
    (id : String) (body : Val) (data : Obj) (hv : v body = .ok data)
    (h : ∀ x ∈ movies, idIs id x = false) :
    patchMovie v movies id body =
      (⟨404, [], .json (.obj [("message", .str "Movie not found")])⟩, movies) := by
  unfold patchMovie
  rw [hv]
  simp only [(findIndex_eq_none (idIs id) movies).mpr h]

theorem all_false_of_not_exists (p : Obj → Bool) (movies : List Obj)
    (h : ¬ ∃ m ∈ movies, p m = true) : ∀ x ∈ movies, p x = false := by
  intro x hx
  cases hc : p x with
  | false => rfl
  | true => exact absurd ⟨x, hx, hc⟩ h

/-- C7. For every collection, every id present in it and every body the
partial validator accepts, `PATCH /movies/:id` answers 200 with the first
record carrying the id in which exactly the properties present in the
validated data are overwritten and every other property keeps its value; that
record is stored at the same position, the length of the collection and the
record at every other position are unchanged; with validated data that has no
properties the returned record and the whole collection are unchanged. -/
theorem patch_frame (validatePartialMovie : Val → ParseResult)
    (movies : List Obj) (id : String) (body : Val) (data : Obj)
    (hv : validatePartialMovie body = .ok data)
    (hp : ∃ m ∈ movies, idIs id m = true) :
    ∃ pre old post, movies = pre ++ old :: post ∧
      (∀ x ∈ pre, idIs id x = false) ∧ idIs id old = true ∧
      (patchMovie validatePartialMovie movies id body).1 =
        ⟨200, [], .json (.obj (updateMovie old data).fields)⟩ ∧
      (∀ k, (updateMovie old data).get k =
        match data.get k with
        | some x => some x
        | none => old.get k) ∧
      (patchMovie validatePartialMovie movies id body).2 =
        pre ++ updateMovie old data :: post ∧
      (patchMovie validatePartialMovie movies id body).2[pre.length]? =
        some (updateMovie old data) ∧
      (patchMovie validatePartialMovie movies id body).2.length =
        movies.length ∧
      (∀ j, j ≠ pre.length →
        (patchMovie validatePartialMovie movies id body).2[j]? = movies[j]?) ∧
      (data.fields = [] →
        updateMovie old data = old ∧
          (patchMovie validatePartialMovie movies id body).2 = movies) := by
  obtain ⟨pre, old, post, hl, hpre, hm⟩ := exists_split_of_mem (idIs id) movies hp
  subst hl
  have hpatch := patchMovie_found validatePartialMovie pre old post id body data
    hv hpre hm
  refine ⟨pre, old, post, rfl, hpre, hm, ?_, get_updateMovie old data, ?_, ?_,
    ?_, ?_, ?_⟩
  · rw [hpatch]
  · rw [hpatch]
  · rw [hpatch]
    exact getElem?_at_length pre _ post
  · rw [hpatch]
    simp
  · intro j hj
    rw [hpatch]
    exact getElem?_replace_other pre old _ post j hj
  · intro hempty
    have hsame : updateMovie old data = old := by
      rw [updateMovie_eq, spreadInto_no_fields old data hempty]
    rw [hpatch, hsame]
    exact ⟨rfl, rfl⟩

/-- C7, patching record `b` of `[movieA, movieB]` with `draftTitle`. -/
theorem patch_frame_witness :
    ∃ pre old post, [movieA, movieB] = pre ++ old :: post ∧
      (∀ x ∈ pre, idIs "b" x = false) ∧ idIs "b" old = true ∧
      (patchMovie (acceptAs draftTitle) [movieA, movieB] "b" .null).1 =
        ⟨200, [], .json (.obj (updateMovie old draftTitle).fields)⟩ ∧
      (∀ k, (updateMovie old draftTitle).get k =
        match draftTitle.get k with
        | some x => some x
        | none => old.get k) ∧
      (patchMovie (acceptAs draftTitle) [movieA, movieB] "b" .null).2 =
        pre ++ updateMovie old draftTitle :: post ∧
      (patchMovie (acceptAs draftTitle) [movieA, movieB] "b" .null).2[pre.length]? =
        some (updateMovie old draftTitle) ∧
      (patchMovie (acceptAs draftTitle) [movieA, movieB] "b" .null).2.length =
        [movieA, movieB].length ∧
      (∀ j, j ≠ pre.length →
        (patchMovie (acceptAs draftTitle) [movieA, movieB] "b" .null).2[j]? =
          [movieA, movieB][j]?) ∧
      (draftTitle.fields = [] →
        updateMovie old draftTitle = old ∧
          (patchMovie (acceptAs draftTitle) [movieA, movieB] "b" .null).2 =
            [movieA, movieB]) :=
  patch_frame (acceptAs draftTitle) [movieA, movieB] "b" .null draftTitle rfl
    (by decide)

/-- C8. `DELETE /movies/:id` changes the collection only by removing one
record: when no record carries the id it answers 404 and the collection is
unchanged; when one does it answers 200, the first record carrying the id is
removed, the collection is one shorter, and the other records stay, unchanged
and in the same relative order. -/
theorem delete_frame (movies : List Obj) (origin : Option String)
    (id : String) :
    ((∀ m ∈ movies, idIs id m = false) →
        (deleteMovie movies origin id).1.status = 404 ∧
          (deleteMovie movies origin id).2 = movies) ∧
      ((∃ m ∈ movies, idIs id m = true) →
        ∃ pre removed post, movies = pre ++ removed :: post ∧
          (∀ x ∈ pre, idIs id x = false) ∧
          removed.get "id" = some (.str id) ∧
          (deleteMovie movies origin id).1.status = 200 ∧
          (deleteMovie movies origin id).2 = pre ++ post ∧
          (deleteMovie movies origin id).2.length + 1 = movies.length ∧
          (deleteMovie movies origin id).2.Sublist movies) := by
  constructor
  · intro h
    rw [deleteMovie_absent movies origin id h]
    exact ⟨rfl, rfl⟩
  · intro h
    obtain ⟨pre, m, post, hl, hpre, hm⟩ := exists_split_of_mem (idIs id) movies h
    subst hl
    refine ⟨pre, m, post, rfl, hpre, (idIs_iff id m).mp hm, ?_⟩
    rw [deleteMovie_found pre m post origin id hpre hm]
    refine ⟨rfl, rfl, by simp; omega, ?_⟩
    exact List.Sublist.append_left (List.sublist_cons_self m post) pre

/-- C8, deleting the record `a` from `[movieA, movieB]`. -/
theorem delete_frame_witness :
    ∃ pre removed post, [movieA, movieB] = pre ++ removed :: post ∧
      (∀ x ∈ pre, idIs "a" x = false) ∧
      removed.get "id" = some (.str "a") ∧
      (deleteMovie [movieA, movieB] none "a").1.status = 200 ∧
      (deleteMovie [movieA, movieB] none "a").2 = pre ++ post ∧
      (deleteMovie [movieA, movieB] none "a").2.length + 1 =
        [movieA, movieB].length ∧
      (deleteMovie [movieA, movieB] none "a").2.Sublist [movieA, movieB] :=
  (delete_frame [movieA, movieB] none "a").2 ⟨movieA, by decide, by decide⟩

/-- C9. `POST /movies` changes the collection only by appending: when the
full-record validator rejects the body it answers 422 with the violations and
the collection is unchanged; when it accepts it answers 201 with the new
record, and the next collection is the previous one, every record unchanged
and in place, followed by the new record as last element, one longer, and a
following unfiltered `GET /movies` returns that collection. -/
theorem create_frame (validateMovie : Val → ParseResult) (uuid : String)
    (movies : List Obj) (body : Val) :
    (∀ issues, validateMovie body = .fail issues →
        postMovie validateMovie uuid movies body =
          (⟨422, [], .json (.obj [("error", issues)])⟩, movies)) ∧
      (∀ data, validateMovie body = .ok data →
        (postMovie validateMovie uuid movies body).1 =
          ⟨201, [], .json (.obj (newMovie uuid data).fields)⟩ ∧
        (postMovie validateMovie uuid movies body).2 =
          movies ++ [newMovie uuid data] ∧
        (postMovie validateMovie uuid movies body).2.length =
          movies.length + 1 ∧
        (postMovie validateMovie uuid movies body).2.getLast? =
          some (newMovie uuid data) ∧
        (∀ j, j < movies.length →
          (postMovie validateMovie uuid movies body).2[j]? = movies[j]?) ∧
        ∀ (lower : String → String) (origin : Option String),
          getMovies lower (postMovie validateMovie uuid movies body).2 origin
              none =
            .ok ⟨200, corsHeaders origin,
              .json (moviesJson (movies ++ [newMovie uuid data]))⟩) := by
  constructor
  · intro issues h
    unfold postMovie
    rw [h]
  · intro data h
    have hpost : postMovie validateMovie uuid movies body =
        (⟨201, [], .json (.obj (newMovie uuid data).fields)⟩,
         movies ++ [newMovie uuid data]) := by
      unfold postMovie
      rw [h]
    rw [hpost]
    refine ⟨rfl, rfl, by simp, by simp, ?_, fun _ _ => rfl⟩
    intro j hj
    exact getElem?_append_lt movies _ j hj

/-- C9, creating `draftTitle` with generated id `c` in `[movieA, movieB]`. -/
theorem create_frame_witness :
    (postMovie (acceptAs draftTitle) "c" [movieA, movieB] .null).1 =
        ⟨201, [], .json (.obj (newMovie "c" draftTitle).fields)⟩ ∧
      (postMovie (acceptAs draftTitle) "c" [movieA, movieB] .null).2 =
        [movieA, movieB] ++ [newMovie "c" draftTitle] ∧
      (postMovie (acceptAs draftTitle) "c" [movieA, movieB] .null).2.length =
        [movieA, movieB].length + 1 ∧
      (postMovie (acceptAs draftTitle) "c" [movieA, movieB] .null).2.getLast? =
        some (newMovie "c" draftTitle) ∧
      (∀ j, j < [movieA, movieB].length →
        (postMovie (acceptAs draftTitle) "c" [movieA, movieB] .null).2[j]? =
          [movieA, movieB][j]?) ∧
      ∀ (lower : String → String) (origin : Option String),
        getMovies lower
            (postMovie (acceptAs draftTitle) "c" [movieA, movieB] .null).2
            origin none =
          .ok ⟨200, corsHeaders origin,
            .json (moviesJson ([movieA, movieB] ++ [newMovie "c" draftTitle]))⟩ :=
  (create_frame (acceptAs draftTitle) "c" [movieA, movieB] .null).2 draftTitle
    rfl

/-- C10, refuted as stated: in `[movieA, movieB]` no two movies share an id,
the validator accepts a body whose validated data carries `id: "b"`, and both
after `PATCH /movies/a` with that body and after `POST /movies` with that body
(the spread data replaces the generated id `c`) two movies carry the id `b`. -/
theorem patch_breaks_uniqueIds :
    uniqueIds [movieA, movieB] ∧
      acceptObject (.obj [("id", .str "b")]) = .ok draftWithId ∧
      ¬ uniqueIds
        (step rejectAll acceptObject "c" [movieA, movieB]
          (.update "a" (.obj [("id", .str "b")]))) ∧
      ¬ uniqueIds
        (step acceptObject rejectAll "c" [movieA, movieB]
          (.create (.obj [("id", .str "b")]))) := by
  decide

/-- C10, amended. When the validated data of both validators never carries an
`id` property and the generated id is carried by no movie of the collection,
`no two movies share an id` is preserved by every operation (list, getById,
create, partialUpdate, delete, preflight) on every request input. -/
theorem uniqueIds_preserved
    (validateMovie validatePartialMovie : Val → ParseResult) (uuid : String)
    (movies : List Obj) (op : Op)
    (hfull : ∀ body data, validateMovie body = .ok data → data.get "id" = none)
    (hpart : ∀ body data,
      validatePartialMovie body = .ok data → data.get "id" = none)
    (hfresh : ∀ m ∈ movies, m.get "id" ≠ some (.str uuid))
    (hu : uniqueIds movies) :
    uniqueIds (step validateMovie validatePartialMovie uuid movies op) := by
  cases op with
  | list origin genre => exact hu
  | getById id => exact hu
  | preflight origin => exact hu
  | create body =>
    simp only [step]
    cases hv : validateMovie body with
    | fail issues =>
      unfold postMovie
      rw [hv]
      exact hu
    | ok data =>
      unfold postMovie
      rw [hv]
      have hid : (newMovie uuid data).get "id" = some (.str uuid) := by
        rw [get_newMovie, hfull body data hv]
        rfl
      unfold uniqueIds at hu ⊢
      rw [List.map_append, List.map_cons, List.map_nil, hid]
      refine List.Nodup.append hu (List.nodup_singleton _) ?_
      intro a ha hb
      rw [List.mem_singleton] at hb
      obtain ⟨m, hm, hma⟩ := List.mem_map.mp ha
      exact hfresh m hm (hma.trans hb)
  | update id body =>
    simp only [step]
    cases hv : validatePartialMovie body with
    | fail issues =>
      unfold patchMovie
      rw [hv]
      exact hu
    | ok data =>
      by_cases hex : ∃ m ∈ movies, idIs id m = true
      · obtain ⟨pre, old, post, hl, hpre, hm⟩ :=
          exists_split_of_mem (idIs id) movies hex
        subst hl
        rw [patchMovie_found validatePartialMovie pre old post id body data hv
          hpre hm]
        have hid : (updateMovie old data).get "id" = old.get "id" := by
          rw [get_updateMovie, hpart body data hv]
        unfold uniqueIds at hu ⊢
        rw [List.map_append, List.map_cons] at hu ⊢
        rw [hid]
        exact hu
      · rw [patchMovie_absent validatePartialMovie movies id body data hv
          (all_false_of_not_exists (idIs id) movies hex)]
        exact hu
  | delete origin id =>
    simp only [step]
    by_cases hex : ∃ m ∈ movies, idIs id m = true
    · obtain ⟨pre, m, post, hl, hpre, hm⟩ :=
        exists_split_of_mem (idIs id) movies hex
      subst hl
      rw [deleteMovie_found pre m post origin id hpre hm]
      unfold uniqueIds at hu ⊢
      refine List.Nodup.sublist ?_ hu
      exact List.Sublist.map _
        (List.Sublist.append_left (List.sublist_cons_self m post) pre)
    · rw [deleteMovie_absent movies origin id
        (all_false_of_not_exists (idIs id) movies hex)]
      exact hu

/-- C10 amended, patching record `a` of `[movieA, movieB]` with `draftTitle`
under validators that return `draftTitle`. -/
theorem uniqueIds_preserved_witness :
    uniqueIds
      (step (acceptAs draftTitle) (acceptAs draftTitle) "c" [movieA, movieB]
        (.update "a" .null)) :=
  uniqueIds_preserved (acceptAs draftTitle) (acceptAs draftTitle) "c"
    [movieA, movieB] (.update "a" .null)
    (fun _ _ h => by cases h; decide) (fun _ _ h => by cases h; decide)
    (by decide) (by decide)

end MoviesApi
